import Mathlib

/- Shallow embedding of the object_store_s3_wasm adapter (src/src/lib.rs and
src/src/error.rs): the request-building and response-normalization logic of the
ObjectStore implementation for S3, with machine integers modelled as Int/Nat
with explicit two's-complement bounds and fallible code returning Except or a
three-valued Outcome (ok / err / panics, the last modelling a Rust panic). -/

namespace S3Wasm

/-- Error kinds from src/src/error.rs (enum Error). -/
inductive Error where
  | s3Infallible
  | s3Head
  | s3UploadPart
  | s3CreateMultipart
  | s3CompleteMultipart
  | s3PutObject
  | s3Conversion
  | parseInt
  | unknown
deriving DecidableEq, Repr

/-- The object_store error shapes that src constructs: Generic with a store tag
and a source cause, and NotSupported with a source cause. -/
inductive ObjectStoreError where
  | generic (store : String) (source : Error)
  | notSupported (source : Error)
deriving DecidableEq, Repr

/-- From Error for object_store Error (src/src/error.rs lines 40-47): wraps any
adapter error as Generic with store tag "S3". -/
def Error.toObjectStoreError (e : Error) : ObjectStoreError :=
  .generic "S3" e

/-- i64 minimum, for checked arithmetic in the smithy timestamp conversion. -/
def i64Min : Int := -9223372036854775808

/-- i64 maximum. -/
def i64Max : Int := 9223372036854775807

/-- aws_smithy_types DateTime: whole seconds since the Unix epoch plus a
non-negative subsecond nanosecond part. -/
structure SmithyDateTime where
  seconds : Int
  subsecNanos : Nat
deriving DecidableEq, Repr

/-- aws_smithy_types DateTime.from_millis: euclidean split of milliseconds into
seconds and subsecond nanoseconds. -/
def SmithyDateTime.fromMillis (m : Int) : SmithyDateTime :=
  { seconds := m.ediv 1000, subsecNanos := (m.emod 1000).toNat * 1000000 }

/-- aws_smithy_types DateTime.to_millis: seconds * 1000 plus subsecond
milliseconds, with checked i64 arithmetic; overflow is a ConversionError
(mapped to Error.s3Conversion by the From impl in src/src/error.rs). -/
def SmithyDateTime.toMillis (d : SmithyDateTime) : Except Error Int :=
  let base := d.seconds * 1000
  let m := base + ((d.subsecNanos / 1000000 : Nat) : Int)
  if i64Min ≤ base ∧ base ≤ i64Max ∧ i64Min ≤ m ∧ m ≤ i64Max then .ok m
  else .error .s3Conversion

/-- Smallest millisecond value representable by a chrono calendar datetime:
midnight of -262144-01-01, the minimum chrono NaiveDate. -/
def chronoMinMillis : Int := -8334632851200000

/-- Largest millisecond value representable by a chrono calendar datetime
(year 262143, the maximum chrono NaiveDate year, end of December 31). -/
def chronoMaxMillis : Int := 8210298412799999

/-- chrono DateTime.from_timestamp_millis: Some exactly when the millisecond
value lies inside chrono's calendar range, None otherwise. A chrono
DateTime of Utc is modelled by its epoch-millisecond value, which is the
resolution at which the adapter constructs it. -/
def chronoFromTimestampMillis (m : Int) : Option Int :=
  if chronoMinMillis ≤ m ∧ m ≤ chronoMaxMillis then some m else none

/-- Rust cast from i64 to usize on the crate's wasm32 target (32-bit usize):
two's-complement truncation, i.e. reduction modulo 2^32. -/
def i64AsUsize (n : Int) : Nat :=
  (n.emod 4294967296).toNat

/-- usize maximum on the crate's wasm32 target. -/
def usizeMax : Nat := 4294967295

/-- A caller-side chrono DateTime of Utc (the type of GetOptions timestamps):
whole seconds since the Unix epoch plus subsecond nanoseconds. -/
structure ChronoDateTime where
  seconds : Int
  subsecNanos : Nat
deriving DecidableEq, Repr

/-- signed_duration_since of the epoch followed by num_milliseconds, as the
source computes protocol timestamps (src/src/lib.rs lines 111-115): chrono's
num_milliseconds truncates the total nanoseconds toward zero at millisecond
resolution. -/
def numMillisSinceEpoch (t : ChronoDateTime) : Int :=
  (t.seconds * 1000000000 + (t.subsecNanos : Int)).tdiv 1000000

/-- object_store GetRange: a bounded half-open range, an offset-only range, or
a suffix range. -/
inductive GetRange where
  | bounded (start stop : Nat)
  | offset (n : Nat)
  | suffix (n : Nat)
deriving DecidableEq, Repr

/-- The fields of object_store GetOptions that the source reads
(src/src/lib.rs lines 101-136). -/
structure GetOptions where
  if_match : Option String := none
  if_none_match : Option String := none
  if_modified_since : Option ChronoDateTime := none
  if_unmodified_since : Option ChronoDateTime := none
  range : Option GetRange := none
deriving DecidableEq, Repr

/-- The GetObject request fields the source can set; every conditional field
starts absent. -/
structure GetObjectRequest where
  bucket : String
  key : String
  if_match : Option String := none
  if_none_match : Option String := none
  if_modified_since : Option SmithyDateTime := none
  if_unmodified_since : Option SmithyDateTime := none
  range : Option String := none
deriving DecidableEq, Repr

/-- Request construction of get_opts (src/src/lib.rs lines 96-136). In the
if_unmodified_since branch the source calls request.if_modified_since
(line 127), so that branch sets the if_modified_since field of the request. -/
def get_opts_request (bucket key : String) (options : GetOptions) : GetObjectRequest :=
  let request : GetObjectRequest := { bucket := bucket, key := key }
  let request := match options.if_match with
    | some if_match => { request with if_match := some if_match }
    | none => request
  let request := match options.if_none_match with
    | some if_none_match => { request with if_none_match := some if_none_match }
    | none => request
  let request := match options.if_modified_since with
    | some if_modified_since =>
      { request with
        if_modified_since := some (SmithyDateTime.fromMillis (numMillisSinceEpoch if_modified_since)) }
    | none => request
  let request := match options.if_unmodified_since with
    | some if_unmodified_since =>
      { request with
        if_modified_since := some (SmithyDateTime.fromMillis (numMillisSinceEpoch if_unmodified_since)) }
    | none => request
  let request := match options.range with
    | some (.bounded start stop) =>
      { request with
        range := some ("bytes=" ++ toString start ++ "-" ++ toString stop) }
    | _ => request
  request

/-- Repeated stripping of the leading pattern "bytes=", as Rust's
trim_start_matches does (src/src/lib.rs line 150); fuel-indexed, with the
string length as fuel (each strip consumes six characters). -/
def trimBytesEqAux : Nat → List Char → List Char
  | 0, s => s
  | fuel + 1, 'b' :: 'y' :: 't' :: 'e' :: 's' :: '=' :: rest => trimBytesEqAux fuel rest
  | _ + 1, s => s

/-- Rust str.trim_start_matches with the literal pattern "bytes=". -/
def trimBytesEq (s : List Char) : List Char :=
  trimBytesEqAux s.length s

/-- Splitting on the separator "-" as Rust's str.split does: every string
yields at least one (possibly empty) component. -/
def splitDashAux : List Char → List Char → List (List Char)
  | [], acc => [acc.reverse]
  | '-' :: rest, acc => acc.reverse :: splitDashAux rest []
  | c :: rest, acc => splitDashAux rest (c :: acc)

/-- Rust str.split over the separator "-". -/
def splitDash (s : List Char) : List (List Char) :=
  splitDashAux s []

/-- Accumulate decimal digits; none on the first non-digit character. -/
def digitsToNat (acc : Nat) : List Char → Option Nat
  | [] => some acc
  | c :: rest => if c.isDigit then digitsToNat (acc * 10 + (c.toNat - 48)) rest else none

/-- Rust str.parse for usize: an optional leading plus sign, then at least one
decimal digit and nothing else, rejecting values above usize's maximum;
every other input is a ParseIntError (Error.parseInt). -/
def parseUsizeChars (s : List Char) : Except Error Nat :=
  let body := match s with
    | '+' :: rest => rest
    | _ => s
  match body with
  | [] => .error .parseInt
  | _ =>
    match digitsToNat 0 body with
    | none => .error .parseInt
    | some n => if n ≤ usizeMax then .ok n else .error .parseInt

/-- Rust's collect of an iterator of Results into Result of Vec: stops at the
first error. -/
def collectParse : List (List Char) → Except Error (List Nat)
  | [] => .ok []
  | c :: rest =>
    match parseUsizeChars c with
    | .error e => .error e
    | .ok n =>
      match collectParse rest with
      | .error e => .error e
      | .ok ns => .ok (n :: ns)

/-- The content-range processing of get_opts (src/src/lib.rs lines 147-154):
trim_start_matches of "bytes=", split on "-", parse each component as usize,
collect into a Result. -/
def parse_content_range (s : String) : Except Error (List Nat) :=
  collectParse (splitDash (trimBytesEq s.data))

/-- Result of running a piece of Rust code: a value, a returned error, or a
panic (unwrap of None or an out-of-bounds index). -/
inductive Outcome (α : Type) where
  | ok (a : α)
  | err (e : ObjectStoreError)
  | panics
deriving DecidableEq, Repr

/-- object_store ObjectMeta as the source fills it; the chrono last_modified
is modelled by its epoch-millisecond value. -/
structure ObjectMeta where
  location : String
  last_modified : Int
  size : Nat
  e_tag : Option String
  version : Option String
deriving DecidableEq, Repr

/-- The metadata part of object_store GetResult: the meta plus the byte range
taken from the parsed content-range (the streaming payload itself carries no
normalization logic beyond the error tagging modelled separately). -/
structure GetResult where
  meta : ObjectMeta
  range_start : Nat
  range_end : Nat
deriving DecidableEq, Repr

/-- The fields of the GetObject response the source reads: last_modified and
content_range are optional, content_length is a plain i64, e_tag optional. -/
structure GetObjectResponse where
  last_modified : Option SmithyDateTime
  content_length : Int
  content_range : Option String
  e_tag : Option String
deriving DecidableEq, Repr

/-- Response normalization of get_opts (src/src/lib.rs lines 138-174), in
source order: last_modified (ok_or Unknown, then to_millis with error
propagation, then from_timestamp_millis unwrapped - a panic when it is None),
then the content_length cast, then content_range (ok_or Unknown, parsed with
error propagation), and finally the range built from indices 0 and 1 of the
parsed vector - a panic when it has fewer than two components. -/
def get_opts_response (location : String) (response : GetObjectResponse) : Outcome GetResult :=
  match response.last_modified with
  | none => .err Error.unknown.toObjectStoreError
  | some lm =>
    match lm.toMillis with
    | .error e => .err e.toObjectStoreError
    | .ok millis =>
      match chronoFromTimestampMillis millis with
      | none => .panics
      | some last_modified =>
        let size := i64AsUsize response.content_length
        match response.content_range with
        | none => .err Error.unknown.toObjectStoreError
        | some cr =>
          match parse_content_range cr with
          | .error e => .err e.toObjectStoreError
          | .ok range =>
            match range with
            | r0 :: r1 :: _ =>
              .ok { meta := { location := location, last_modified := last_modified,
                              size := size, e_tag := response.e_tag, version := none },
                    range_start := r0, range_end := r1 }
            | _ => .panics

/-- The fields of the HeadObject response the source reads. -/
structure HeadObjectResponse where
  last_modified : Option SmithyDateTime
  content_length : Int
  e_tag : Option String
deriving DecidableEq, Repr

/-- Response normalization of head (src/src/lib.rs lines 188-203): the same
last_modified pipeline as get_opts (including the unwrap panic), then the
metadata with the content_length cast and the e_tag passed through. -/
def head_response (location : String) (output : HeadObjectResponse) : Outcome ObjectMeta :=
  match output.last_modified with
  | none => .err Error.unknown.toObjectStoreError
  | some lm =>
    match lm.toMillis with
    | .error e => .err e.toObjectStoreError
    | .ok millis =>
      match chronoFromTimestampMillis millis with
      | none => .panics
      | some last_modified =>
        .ok { location := location, last_modified := last_modified,
              size := i64AsUsize output.content_length, e_tag := output.e_tag, version := none }

/-- The fields of a ListObjectsV2 contents entry the source reads. -/
structure S3ListObject where
  key : Option String
  last_modified : Option SmithyDateTime
  size : Int
  e_tag : Option String
deriving DecidableEq, Repr

/-- The per-entry closure shared by list and list_with_delimiter
(src/src/lib.rs lines 221-242 and 266-288), in source order: the
last_modified pipeline (ok_or Unknown wrapped as store "S3", to_millis with
error propagation, from_timestamp_millis unwrapped - a panic when None), then
the metadata whose location is the key, with a missing key reported as a
Generic error tagged "aws" with source Unknown. -/
def object_to_meta (object : S3ListObject) : Outcome ObjectMeta :=
  match object.last_modified with
  | none => .err Error.unknown.toObjectStoreError
  | some lm =>
    match lm.toMillis with
    | .error e => .err e.toObjectStoreError
    | .ok millis =>
      match chronoFromTimestampMillis millis with
      | none => .panics
      | some last_modified =>
        match object.key with
        | none => .err (.generic "aws" .unknown)
        | some key =>
          .ok { location := key, last_modified := last_modified,
                size := i64AsUsize object.size, e_tag := object.e_tag, version := none }

/-- The ListObjectsV2 request fields the source can set; the source never
calls the delimiter setter, so that field can only be absent. The field pfx
models the request's prefix. -/
structure ListObjectsV2Request where
  bucket : String
  pfx : Option String := none
  delimiter : Option String := none
deriving DecidableEq, Repr

/-- Request construction shared by list and list_with_delimiter
(src/src/lib.rs lines 209-213 and 257-261): bucket, then the prefix when one
was given; no other setter is called. -/
def list_request (bucket : String) (p : Option String) : ListObjectsV2Request :=
  let request : ListObjectsV2Request := { bucket := bucket }
  match p with
  | some p => { request with pfx := some p }
  | none => request

/-- A ListObjectsV2 common-prefixes entry; the field pfx models its optional
prefix string. -/
structure CommonPrefixEntry where
  pfx : Option String
deriving DecidableEq, Repr

/-- The fields of the ListObjectsV2 response the source reads. -/
structure ListObjectsV2Response where
  contents : Option (List S3ListObject)
  common_prefixes : Option (List CommonPrefixEntry)
deriving DecidableEq, Repr

/-- The stream produced by list from one response (src/src/lib.rs lines
218-246): one Outcome per contents entry, or the empty stream when the
contents field is absent. -/
def list_stream (response : ListObjectsV2Response) : List (Outcome ObjectMeta) :=
  match response.contents with
  | some contents => contents.map object_to_meta
  | none => []

/-- The closure the source applies to a failed list request submission
(src/src/lib.rs line 217): every failure is replaced by Unknown wrapped as a
Generic error with store "S3", discarding the original cause. -/
def list_send_error_map (e : Error) : ObjectStoreError :=
  let _ := e
  Error.unknown.toObjectStoreError

/-- The closure the source applies to a get_opts body-stream failure
(src/src/lib.rs lines 157-162): a Generic error tagged "aws_smithy" carrying
the cause. -/
def body_stream_error_map (e : Error) : ObjectStoreError :=
  .generic "aws_smithy" e

/-- Rust's collect of per-entry outcomes into one outcome of a list: the
leftmost error or panic wins, as iteration is sequential. -/
def collectOutcomes {α : Type} : List (Outcome α) → Outcome (List α)
  | [] => .ok []
  | o :: rest =>
    match o with
    | .err e => .err e
    | .panics => .panics
    | .ok a =>
      match collectOutcomes rest with
      | .err e => .err e
      | .panics => .panics
      | .ok tail => .ok (a :: tail)

/-- Rust's collect of an iterator of Options into Option of Vec, used on the
common-prefixes entries (src/src/lib.rs lines 297-300): Some exactly when
every entry has its prefix present. -/
def collectPrefixes : List CommonPrefixEntry → Option (List String)
  | [] => some []
  | x :: rest =>
    match x.pfx with
    | none => none
    | some p =>
      match collectPrefixes rest with
      | none => none
      | some ps => some (p :: ps)

/-- object_store ListResult. -/
structure ListResult where
  objects : List ObjectMeta
  common_prefixes : List String
deriving DecidableEq, Repr

/-- Response shaping of list_with_delimiter (src/src/lib.rs lines 263-303):
the contents entries run through the shared closure and are collected with
error propagation (an absent contents field yields the empty vector), and the
common-prefixes field is collected with and_then and defaulted to the empty
vector when the field is absent or any entry lacks its prefix. -/
def list_with_delimiter_response (response : ListObjectsV2Response) : Outcome ListResult :=
  let objectsOutcome : Outcome (List ObjectMeta) :=
    match response.contents with
    | some contents => collectOutcomes (contents.map object_to_meta)
    | none => .ok []
  match objectsOutcome with
  | .err e => .err e
  | .panics => .panics
  | .ok objects =>
    .ok { objects := objects,
          common_prefixes := (response.common_prefixes.bind collectPrefixes).getD [] }

/-- The MultiPartUpload session record built by put_multipart
(src/src/lib.rs lines 343-348). -/
structure MultiPartUpload where
  bucket : String
  location : String
  upload_id : String
deriving DecidableEq, Repr

/-- The WriteMultiPart sink as constructed by the source: the session plus the
maximum part-upload concurrency passed to its constructor. -/
structure WriteMultiPartSink where
  upload : MultiPartUpload
  max_concurrency : Nat
deriving DecidableEq, Repr

/-- The field of the CreateMultipartUpload response the source reads. -/
structure CreateMultipartUploadResponse where
  upload_id : Option String
deriving DecidableEq, Repr

/-- put_multipart after a successful create call (src/src/lib.rs lines
333-353): an absent upload_id is an error (ok_or Unknown); otherwise the
returned pair is the upload id and a WriteMultiPart sink built with
concurrency bound 16. -/
def put_multipart (bucket location : String) (response : CreateMultipartUploadResponse) :
    Except ObjectStoreError (String × WriteMultiPartSink) :=
  match response.upload_id with
  | none => .error Error.unknown.toObjectStoreError
  | some uid =>
    .ok (uid, { upload := { bucket := bucket, location := location, upload_id := uid },
                max_concurrency := 16 })

/-- copy_if_not_exists (src/src/lib.rs lines 72-80): unconditionally a
NotSupported error with source Unknown. -/
def copy_if_not_exists : Except ObjectStoreError Unit :=
  .error (.notSupported .unknown)

/-- Longest initial segment of a key remainder up to and including the first
occurrence of the delimiter; none when the delimiter does not occur. -/
def upToDelimList (d : List Char) : List Char → Option (List Char)
  | [] => none
  | c :: rest =>
    if d <+: (c :: rest) then some d
    else (upToDelimList d rest).map (fun l => c :: l)

/-- Modelled from the spec: the remote listing service's per-key grouping
(spec sections 4.1 and the glossary entry for common prefix; the remote wire
service is outside src/). For a key that matched the request prefix of length
pfxLen, the common prefix is the prefix plus the remainder up to and
including the first occurrence of the delimiter, when the delimiter occurs in
the remainder. -/
def common_prefix_of (pfxLen : Nat) (d : String) (k : String) : Option String :=
  (upToDelimList d.data (k.data.drop pfxLen)).map
    (fun seg => String.mk (k.data.take pfxLen ++ seg))

/-- Modelled from the spec: the remote ListObjectsV2 semantics over a flat key
space (spec sections 4.1, 6 and the glossary; the remote wire service is
outside src/). Keys are filtered by the request prefix; when the request
carries a delimiter, keys whose remainder contains the delimiter are grouped
under their common prefix (one level of hierarchical grouping) and only the
remaining keys are returned flat; when the request carries no delimiter,
every matching key is returned flat and no common prefixes are produced. All
entries carry the given timestamp and a zero size. -/
def remote_list (request : ListObjectsV2Request) (keys : List String) (lm : SmithyDateTime) :
    ListObjectsV2Response :=
  let matchedKeys := keys.filter (fun k =>
    match request.pfx with
    | some p => p.isPrefixOf k
    | none => true)
  let entry : String → S3ListObject := fun k =>
    { key := some k, last_modified := some lm, size := 0, e_tag := none }
  match request.delimiter with
  | none => { contents := some (matchedKeys.map entry), common_prefixes := none }
  | some d =>
    let pfxLen := (request.pfx.getD "").length
    let flat := matchedKeys.filter (fun k => (common_prefix_of pfxLen d k).isNone)
    let grouped := (matchedKeys.filterMap (fun k => common_prefix_of pfxLen d k)).dedup
    { contents := some (flat.map entry),
      common_prefixes := some (grouped.map (fun g => { pfx := some g })) }

/-- list_with_delimiter end to end against the modelled remote: the request
built by the source, the modelled remote semantics, the source's response
shaping. -/
def list_with_delimiter_run (bucket : String) (p : Option String) (keys : List String)
    (lm : SmithyDateTime) : Outcome ListResult :=
  list_with_delimiter_response (remote_list (list_request bucket p) keys lm)

/-- Modelled from the spec: the state of the bounded-concurrency part-upload
scheduler of the multipart sink (spec sections 4.2, 5 and 9; multipart.rs and
the WriteMultiPart scheduler are not under src/): the number of part uploads
in flight and the queue of parts waiting for a slot. -/
structure SinkState where
  inFlight : Nat
  queued : List Nat
deriving DecidableEq, Repr

/-- Modelled from the spec: the scheduler's transitions at capacity cap. A
part submitted while a slot is free starts at once; a part submitted while
all slots are busy queues; a finishing part frees its slot; a queued part
starts when a slot is free. -/
inductive SinkStep (cap : Nat) : SinkState → SinkState → Prop
  | start (s : SinkState) (p : Nat) (h : s.inFlight < cap) :
      SinkStep cap s { inFlight := s.inFlight + 1, queued := s.queued }
  | enqueue (s : SinkState) (p : Nat) (h : ¬ s.inFlight < cap) :
      SinkStep cap s { inFlight := s.inFlight, queued := s.queued ++ [p] }
  | finish (s : SinkState) (h : 0 < s.inFlight) :
      SinkStep cap s { inFlight := s.inFlight - 1, queued := s.queued }
  | dequeue (s : SinkState) (p : Nat) (rest : List Nat) (h : s.inFlight < cap)
      (hq : s.queued = p :: rest) :
      SinkStep cap s { inFlight := s.inFlight + 1, queued := rest }

/-- The scheduler's initial state: nothing in flight, nothing queued. -/
def sinkInit : SinkState := { inFlight := 0, queued := [] }

/-- The states the modelled scheduler can reach from the initial state. -/
def SinkReachable (cap : Nat) (s : SinkState) : Prop :=
  Relation.ReflTransGen (SinkStep cap) sinkInit s

deriving instance DecidableEq for Except

/-- Helper: the collected parse of a component list is an error exactly when
some component fails to parse. -/
theorem collectParse_error_iff (l : List (List Char)) :
    (∃ e, collectParse l = Except.error e) ↔
      ∃ c ∈ l, ∃ e, parseUsizeChars c = Except.error e := by
  induction l with
  | nil => simp [collectParse]
  | cons c rest ih =>
    cases hc : parseUsizeChars c with
    | error e =>
      simp only [collectParse, hc]
      constructor
      · intro _
        exact ⟨c, List.mem_cons_self c rest, e, hc⟩
      · intro _
        exact ⟨e, rfl⟩
    | ok n =>
      cases hr : collectParse rest with
      | error e =>
        simp only [collectParse, hc, hr]
        constructor
        · intro _
          obtain ⟨c2, hmem, e2, he2⟩ := ih.mp ⟨e, hr⟩
          exact ⟨c2, List.mem_cons_of_mem _ hmem, e2, he2⟩
        · intro _
          exact ⟨e, rfl⟩
      | ok ns =>
        simp only [collectParse, hc, hr]
        constructor
        · rintro ⟨e, he⟩
          exact Except.noConfusion he
        · rintro ⟨c2, hmem, e2, he2⟩
          exfalso
          rcases List.mem_cons.mp hmem with h | h
          · subst h
            rw [hc] at he2
            exact Except.noConfusion he2
          · obtain ⟨e3, he3⟩ := ih.mpr ⟨c2, h, e2, he2⟩
            rw [hr] at he3
            exact Except.noConfusion he3

/-- C1: the source's list_with_delimiter builds its remote list request without
ever calling the delimiter setter, so with the remote list semantics modelled
from the spec it performs no hierarchical grouping: over the key space a/b,
a/c, d with no prefix it returns all three keys in the flat object list and an
empty common-prefix set, while the same modelled remote given a request that
does carry the delimiter returns the spec's split (common prefix a/ and flat
object d). -/
theorem c1_list_with_delimiter_sends_no_delimiter :
    (list_request "bucket" none).delimiter = none ∧
    list_with_delimiter_run "bucket" none ["a/b", "a/c", "d"] ⟨0, 0⟩ =
      .ok { objects := [⟨"a/b", 0, 0, none, none⟩, ⟨"a/c", 0, 0, none, none⟩,
                        ⟨"d", 0, 0, none, none⟩],
            common_prefixes := [] } ∧
    remote_list { bucket := "bucket", delimiter := some "/" } ["a/b", "a/c", "d"] ⟨0, 0⟩ =
      { contents := some [⟨some "d", some ⟨0, 0⟩, 0, none⟩],
        common_prefixes := some [⟨some "a/"⟩] } := by
  refine ⟨rfl, by decide, by decide⟩

/-- C2: evaluating get_opts request construction at options whose only present
field is if_unmodified_since one second after the epoch: the built request
carries that timestamp in its if_modified_since field and leaves the protocol
if_unmodified_since field unset, because the source's if_unmodified_since
branch calls request.if_modified_since (src/src/lib.rs line 127). -/
theorem c2_if_unmodified_since_sets_if_modified_since :
    get_opts_request "b" "k" { if_unmodified_since := some ⟨1, 0⟩ } =
      { bucket := "b", key := "k", if_modified_since := some ⟨1, 0⟩ } ∧
    (get_opts_request "b" "k" { if_unmodified_since := some ⟨1, 0⟩ }).if_unmodified_since =
      none := by
  refine ⟨by decide, rfl⟩

/-- Counterexample to C3: the content-range string 0-5, which lacks the
bytes= prefix and so is not of the exact form the claim requires, is accepted
with the range 0 to 5 rather than rejected with a parse error. -/
theorem c3_missing_prefix_accepted :
    parse_content_range "0-5" = .ok [0, 5] ∧
    get_opts_response "k" { last_modified := some ⟨0, 0⟩, content_length := 5,
                            content_range := some "0-5", e_tag := none } =
      .ok { meta := ⟨"k", 0, 5, none, none⟩, range_start := 0, range_end := 5 } := by
  refine ⟨by decide, by decide⟩

/-- C3 amended: content-range parsing returns a parse error exactly when some
dash-separated component, after stripping leading repetitions of bytes=,
fails usize parsing; a numeric string without the bytes= prefix is accepted,
and a string with extra numeric components is accepted with the first two
components used as the returned range. -/
theorem c3_parse_error_iff_component_fails :
    (∀ s : String, (∃ e, parse_content_range s = Except.error e) ↔
      ∃ c ∈ splitDash (trimBytesEq s.data), ∃ e, parseUsizeChars c = Except.error e) ∧
    parse_content_range "bytes=1-2-3" = .ok [1, 2, 3] ∧
    get_opts_response "k" { last_modified := some ⟨0, 0⟩, content_length := 0,
                            content_range := some "bytes=1-2-3", e_tag := none } =
      .ok { meta := ⟨"k", 0, 0, none, none⟩, range_start := 1, range_end := 2 } := by
  refine ⟨fun s => collectParse_error_iff _, by decide, by decide⟩

/-- C3 amended witness: a content-range string with a non-numeric component is
rejected with a parse error. -/
theorem c3_parse_error_witness :
    ∃ e, parse_content_range "bytes=x-1" = Except.error e :=
  (c3_parse_error_iff_component_fails.1 "bytes=x-1").mpr
    ⟨['x'], by decide, Error.parseInt, by decide⟩

/-- Counterexample to C4: a list_with_delimiter response whose common-prefixes
field is absent and whose single entry has no entity tag succeeds with the
common-prefix set defaulted to empty and the entity tag passed through as
absent, instead of returning an error for the absent fields. -/
theorem c4_absent_fields_defaulted_ok :
    list_with_delimiter_response
        { contents := some [{ key := some "k", last_modified := some ⟨0, 0⟩,
                              size := 0, e_tag := none }],
          common_prefixes := none } =
      .ok { objects := [⟨"k", 0, 0, none, none⟩], common_prefixes := [] } := by
  decide

/-- C4 amended: absence of the timestamp, the content-range, the upload-id, or
an object key is an error and never defaulted; by contrast an absent entity
tag is passed through as absent, an absent common-prefix field (or one with
any entry lacking its prefix) is defaulted to the empty list, and the
content-length is a plain integer field of the response with no absence
case. -/
theorem c4_required_fields_amended :
    (∀ loc resp, resp.last_modified = none →
      get_opts_response loc resp = .err (.generic "S3" .unknown)) ∧
    (∀ loc resp, resp.content_range = none → ∀ r, get_opts_response loc resp ≠ .ok r) ∧
    (∀ loc output, output.last_modified = none →
      head_response loc output = .err (.generic "S3" .unknown)) ∧
    (∀ object, object.key = none → ∀ m, object_to_meta object ≠ .ok m) ∧
    (∀ b l, put_multipart b l ⟨none⟩ = .error (.generic "S3" .unknown)) ∧
    (∀ loc resp r, get_opts_response loc resp = .ok r → r.meta.e_tag = resp.e_tag) ∧
    (∀ resp r, resp.common_prefixes = none → list_with_delimiter_response resp = .ok r →
      r.common_prefixes = []) ∧
    (∀ ps, (∃ x ∈ ps, x.pfx = none) → collectPrefixes ps = none) := by
  refine ⟨?_, ?_, ?_, ?_, ?_, ?_, ?_, ?_⟩
  · intro loc resp h
    simp [get_opts_response, h, Error.toObjectStoreError]
  · intro loc resp h r
    obtain ⟨lmo, cl, cro, eto⟩ := resp
    obtain rfl : cro = none := h
    cases lmo with
    | none => simp [get_opts_response]
    | some lm =>
      cases hm : lm.toMillis with
      | error e => simp [get_opts_response, hm]
      | ok ms =>
        cases hc : chronoFromTimestampMillis ms with
        | none => simp [get_opts_response, hm, hc]
        | some v => simp [get_opts_response, hm, hc]
  · intro loc output h
    simp [head_response, h, Error.toObjectStoreError]
  · intro object h m
    obtain ⟨ko, lmo, sz, eto⟩ := object
    obtain rfl : ko = none := h
    cases lmo with
    | none => simp [object_to_meta]
    | some lm =>
      cases hm : lm.toMillis with
      | error e => simp [object_to_meta, hm]
      | ok ms =>
        cases hc : chronoFromTimestampMillis ms with
        | none => simp [object_to_meta, hm, hc]
        | some v => simp [object_to_meta, hm, hc]
  · intro b l
    rfl
  · intro loc resp r h
    obtain ⟨lmo, cl, cro, eto⟩ := resp
    cases lmo with
    | none => simp [get_opts_response] at h
    | some lm =>
      cases hm : lm.toMillis with
      | error e => simp [get_opts_response, hm] at h
      | ok ms =>
        cases hc : chronoFromTimestampMillis ms with
        | none => simp [get_opts_response, hm, hc] at h
        | some v =>
          cases cro with
          | none => simp [get_opts_response, hm, hc] at h
          | some cr =>
            cases hp : parse_content_range cr with
            | error e => simp [get_opts_response, hm, hc, hp] at h
            | ok l =>
              rcases l with _ | ⟨r0, _ | ⟨r1, rest⟩⟩
              · simp [get_opts_response, hm, hc, hp] at h
              · simp [get_opts_response, hm, hc, hp] at h
              · simp only [get_opts_response, hm, hc, hp] at h
                rw [Outcome.ok.injEq] at h
                subst h
                rfl
  · intro resp r h1 h2
    obtain ⟨co, cp⟩ := resp
    obtain rfl : cp = none := h1
    cases co with
    | none =>
      simp only [list_with_delimiter_response] at h2
      rw [Outcome.ok.injEq] at h2
      subst h2
      rfl
    | some contents =>
      cases hco : collectOutcomes (contents.map object_to_meta) with
      | err e => simp [list_with_delimiter_response, hco] at h2
      | panics => simp [list_with_delimiter_response, hco] at h2
      | ok objects =>
        simp only [list_with_delimiter_response, hco] at h2
        rw [Outcome.ok.injEq] at h2
        subst h2
        rfl
  · intro ps
    induction ps with
    | nil =>
      rintro ⟨x, hx, _⟩
      exact absurd hx (List.not_mem_nil x)
    | cons x rest ih =>
      rintro ⟨y, hmem, hy⟩
      rcases List.mem_cons.mp hmem with h | h
      · subst h
        simp [collectPrefixes, hy]
      · have hrest := ih ⟨y, h, hy⟩
        cases hx : x.pfx <;> simp [collectPrefixes, hx, hrest]

/-- C4 amended witness: the amended statement applied at concrete inputs - an
absent timestamp, an absent content-range, an absent key, an absent
upload-id each yield the corresponding error, while an entity tag and the
common-prefix default are passed through without error. -/
theorem c4_required_fields_witness :
    get_opts_response "k" ⟨none, 0, none, none⟩ = .err (.generic "S3" .unknown) ∧
    get_opts_response "k" ⟨some ⟨0, 0⟩, 0, none, none⟩ ≠ .ok ⟨⟨"k", 0, 0, none, none⟩, 0, 0⟩ ∧
    head_response "k" ⟨none, 0, none⟩ = .err (.generic "S3" .unknown) ∧
    object_to_meta ⟨none, some ⟨0, 0⟩, 0, none⟩ ≠ .ok ⟨"x", 0, 0, none, none⟩ ∧
    put_multipart "b" "l" ⟨none⟩ = .error (.generic "S3" .unknown) ∧
    (⟨⟨"k", 0, 5, some "etag", none⟩, 0, 5⟩ : GetResult).meta.e_tag =
      (⟨some ⟨0, 0⟩, 5, some "0-5", some "etag"⟩ : GetObjectResponse).e_tag ∧
    (⟨[], []⟩ : ListResult).common_prefixes = [] ∧
    collectPrefixes [⟨none⟩] = none :=
  ⟨c4_required_fields_amended.1 "k" ⟨none, 0, none, none⟩ rfl,
   c4_required_fields_amended.2.1 "k" ⟨some ⟨0, 0⟩, 0, none, none⟩ rfl _,
   c4_required_fields_amended.2.2.1 "k" ⟨none, 0, none⟩ rfl,
   c4_required_fields_amended.2.2.2.1 ⟨none, some ⟨0, 0⟩, 0, none⟩ rfl _,
   c4_required_fields_amended.2.2.2.2.1 "b" "l",
   c4_required_fields_amended.2.2.2.2.2.1 "k" ⟨some ⟨0, 0⟩, 5, some "0-5", some "etag"⟩
     ⟨⟨"k", 0, 5, some "etag", none⟩, 0, 5⟩ (by decide),
   c4_required_fields_amended.2.2.2.2.2.2.1 ⟨none, none⟩ ⟨[], []⟩ rfl (by decide),
   c4_required_fields_amended.2.2.2.2.2.2.2 [⟨none⟩] ⟨⟨none⟩, by decide, rfl⟩⟩

/-- Counterexample to C5: a list entry with a missing key surfaces as a
Generic error tagged with the store string aws, not the store's single
identity string S3 from the error conversion, and copy_if_not_exists fails
with the NotSupported shape rather than the generic store error shape. -/
theorem c5_store_tag_not_single :
    list_with_delimiter_response
        { contents := some [{ key := none, last_modified := some ⟨0, 0⟩,
                              size := 0, e_tag := none }],
          common_prefixes := none } =
      .err (.generic "aws" .unknown) ∧
    copy_if_not_exists = .error (.notSupported .unknown) := by
  refine ⟨by decide, rfl⟩

/-- C5 amended: failures routed through the adapter's own error type convert
to the generic shape tagged S3 carrying the original cause, but there are
exceptions: a get_opts body-stream failure is tagged aws_smithy, a failed
list request submission is tagged S3 with the original cause replaced by the
unknown kind, copy_if_not_exists returns the NotSupported shape, and a list
entry with a missing key is tagged aws. -/
theorem c5_error_wrapping_amended :
    (∀ e, Error.toObjectStoreError e = .generic "S3" e) ∧
    (∀ e, body_stream_error_map e = .generic "aws_smithy" e) ∧
    (∀ e, list_send_error_map e = .generic "S3" .unknown) ∧
    copy_if_not_exists = .error (.notSupported .unknown) ∧
    (∀ sz et, object_to_meta { key := none, last_modified := some ⟨0, 0⟩,
                               size := sz, e_tag := et } = .err (.generic "aws" .unknown)) :=
  ⟨fun _ => rfl, fun _ => rfl, fun _ => rfl, rfl, fun _ _ => rfl⟩

/-- C5 amended witness: the amended statement applied at concrete errors. -/
theorem c5_error_wrapping_witness :
    Error.toObjectStoreError .s3Head = .generic "S3" .s3Head ∧
    body_stream_error_map .unknown = .generic "aws_smithy" .unknown ∧
    list_send_error_map .s3Head = .generic "S3" .unknown ∧
    object_to_meta { key := none, last_modified := some ⟨0, 0⟩, size := 7, e_tag := none } =
      .err (.generic "aws" .unknown) :=
  ⟨c5_error_wrapping_amended.1 .s3Head, c5_error_wrapping_amended.2.1 .unknown,
   c5_error_wrapping_amended.2.2.1 .s3Head,
   c5_error_wrapping_amended.2.2.2.2 7 none⟩

/-- Counterexample to C6: a head response whose timestamp converts to the
maximum i64 millisecond value, which lies outside chrono's calendar range,
makes the operation panic on the unwrap instead of returning an error. -/
theorem c6_calendar_range_panics :
    head_response "k" { last_modified := some (SmithyDateTime.fromMillis i64Max),
                        content_length := 0, e_tag := none } = .panics ∧
    ∀ e, head_response "k" { last_modified := some (SmithyDateTime.fromMillis i64Max),
                             content_length := 0, e_tag := none } ≠ .err e := by
  have h : head_response "k" { last_modified := some (SmithyDateTime.fromMillis i64Max),
                               content_length := 0, e_tag := none } = .panics := by decide
  refine ⟨h, fun e he => ?_⟩
  rw [h] at he
  exact Outcome.noConfusion he

/-- C6 amended: for get, head and list an absent timestamp yields an error,
and a timestamp whose millisecond conversion overflows yields an error; but
a timestamp whose millisecond value falls outside chrono's calendar range
makes the operation panic rather than return an error; and whenever metadata
is returned its last_modified is the calendar conversion of the response's
own timestamp, never a defaulted value. -/
theorem c6_last_modified_amended :
    (∀ loc resp, resp.last_modified = none →
      get_opts_response loc resp = .err (.generic "S3" .unknown)) ∧
    (∀ loc output, output.last_modified = none →
      head_response loc output = .err (.generic "S3" .unknown)) ∧
    (∀ object, object.last_modified = none →
      object_to_meta object = .err (.generic "S3" .unknown)) ∧
    (∀ loc output lm e, output.last_modified = some lm → lm.toMillis = .error e →
      head_response loc output = .err (.generic "S3" e)) ∧
    (∀ loc output lm ms, output.last_modified = some lm → lm.toMillis = .ok ms →
      chronoFromTimestampMillis ms = none → head_response loc output = .panics) ∧
    (∀ loc output m, head_response loc output = .ok m →
      ∃ lm ms, output.last_modified = some lm ∧ lm.toMillis = .ok ms ∧
        chronoFromTimestampMillis ms = some m.last_modified) ∧
    (∀ loc resp r, get_opts_response loc resp = .ok r →
      ∃ lm ms, resp.last_modified = some lm ∧ lm.toMillis = .ok ms ∧
        chronoFromTimestampMillis ms = some r.meta.last_modified) ∧
    (∀ object m, object_to_meta object = .ok m →
      ∃ lm ms, object.last_modified = some lm ∧ lm.toMillis = .ok ms ∧
        chronoFromTimestampMillis ms = some m.last_modified) := by
  refine ⟨?_, ?_, ?_, ?_, ?_, ?_, ?_, ?_⟩
  · intro loc resp h
    simp [get_opts_response, h, Error.toObjectStoreError]
  · intro loc output h
    simp [head_response, h, Error.toObjectStoreError]
  · intro object h
    simp [object_to_meta, h, Error.toObjectStoreError]
  · intro loc output lm e h1 h2
    obtain ⟨lmo, cl, eto⟩ := output
    obtain rfl : lmo = some lm := h1
    simp [head_response, h2, Error.toObjectStoreError]
  · intro loc output lm ms h1 h2 h3
    obtain ⟨lmo, cl, eto⟩ := output
    obtain rfl : lmo = some lm := h1
    simp [head_response, h2, h3]
  · intro loc output m h
    obtain ⟨lmo, cl, eto⟩ := output
    cases lmo with
    | none => simp [head_response] at h
    | some lm =>
      cases hm : lm.toMillis with
      | error e => simp [head_response, hm] at h
      | ok ms =>
        cases hc : chronoFromTimestampMillis ms with
        | none => simp [head_response, hm, hc] at h
        | some v =>
          refine ⟨lm, ms, rfl, hm, ?_⟩
          simp only [head_response, hm, hc] at h
          rw [Outcome.ok.injEq] at h
          subst h
          exact hc
  · intro loc resp r h
    obtain ⟨lmo, cl, cro, eto⟩ := resp
    cases lmo with
    | none => simp [get_opts_response] at h
    | some lm =>
      cases hm : lm.toMillis with
      | error e => simp [get_opts_response, hm] at h
      | ok ms =>
        cases hc : chronoFromTimestampMillis ms with
        | none => simp [get_opts_response, hm, hc] at h
        | some v =>
          cases cro with
          | none => simp [get_opts_response, hm, hc] at h
          | some cr =>
            cases hp : parse_content_range cr with
            | error e => simp [get_opts_response, hm, hc, hp] at h
            | ok l =>
              rcases l with _ | ⟨r0, _ | ⟨r1, rest⟩⟩
              · simp [get_opts_response, hm, hc, hp] at h
              · simp [get_opts_response, hm, hc, hp] at h
              · refine ⟨lm, ms, rfl, hm, ?_⟩
                simp only [get_opts_response, hm, hc, hp] at h
                rw [Outcome.ok.injEq] at h
                subst h
                exact hc
  · intro object m h
    obtain ⟨ko, lmo, sz, eto⟩ := object
    cases lmo with
    | none => simp [object_to_meta] at h
    | some lm =>
      cases hm : lm.toMillis with
      | error e => simp [object_to_meta, hm] at h
      | ok ms =>
        cases hc : chronoFromTimestampMillis ms with
        | none => simp [object_to_meta, hm, hc] at h
        | some v =>
          cases ko with
          | none => simp [object_to_meta, hm, hc] at h
          | some key =>
            refine ⟨lm, ms, rfl, hm, ?_⟩
            simp only [object_to_meta, hm, hc] at h
            rw [Outcome.ok.injEq] at h
            subst h
            exact hc

/-- C6 amended witness: the amended statement applied at concrete responses -
absence errors for get, head and list, a conversion-overflow error, a
calendar-range panic, and derivations of last_modified for an ok result of
each of the three operations. -/
theorem c6_last_modified_witness :
    get_opts_response "loc" ⟨none, 1, none, none⟩ = .err (.generic "S3" .unknown) ∧
    head_response "loc" ⟨none, 1, none⟩ = .err (.generic "S3" .unknown) ∧
    object_to_meta ⟨some "a", none, 1, none⟩ = .err (.generic "S3" .unknown) ∧
    head_response "loc" ⟨some ⟨i64Max, 0⟩, 0, none⟩ = .err (.generic "S3" .s3Conversion) ∧
    head_response "loc" ⟨some (SmithyDateTime.fromMillis (chronoMaxMillis + 1)), 0, none⟩ =
      .panics ∧
    (∃ lm ms, (⟨some ⟨1, 500000000⟩, 3, some "t"⟩ : HeadObjectResponse).last_modified =
        some lm ∧ lm.toMillis = .ok ms ∧
      chronoFromTimestampMillis ms =
        some (⟨"loc", 1500, 3, some "t", none⟩ : ObjectMeta).last_modified) ∧
    (∃ lm ms, (⟨some ⟨2, 0⟩, 9, some "0-9", some "g"⟩ : GetObjectResponse).last_modified =
        some lm ∧ lm.toMillis = .ok ms ∧
      chronoFromTimestampMillis ms =
        some (⟨⟨"loc", 2000, 9, some "g", none⟩, 0, 9⟩ : GetResult).meta.last_modified) ∧
    (∃ lm ms, (⟨some "a", some ⟨3, 0⟩, 4, none⟩ : S3ListObject).last_modified = some lm ∧
      lm.toMillis = .ok ms ∧
      chronoFromTimestampMillis ms =
        some (⟨"a", 3000, 4, none, none⟩ : ObjectMeta).last_modified) :=
  ⟨c6_last_modified_amended.1 "loc" ⟨none, 1, none, none⟩ rfl,
   c6_last_modified_amended.2.1 "loc" ⟨none, 1, none⟩ rfl,
   c6_last_modified_amended.2.2.1 ⟨some "a", none, 1, none⟩ rfl,
   c6_last_modified_amended.2.2.2.1 "loc" ⟨some ⟨i64Max, 0⟩, 0, none⟩ ⟨i64Max, 0⟩
     .s3Conversion rfl (by decide),
   c6_last_modified_amended.2.2.2.2.1 "loc"
     ⟨some (SmithyDateTime.fromMillis (chronoMaxMillis + 1)), 0, none⟩
     (SmithyDateTime.fromMillis (chronoMaxMillis + 1)) (chronoMaxMillis + 1) rfl (by decide)
     (by decide),
   c6_last_modified_amended.2.2.2.2.2.1 "loc" ⟨some ⟨1, 500000000⟩, 3, some "t"⟩
     ⟨"loc", 1500, 3, some "t", none⟩ (by decide),
   c6_last_modified_amended.2.2.2.2.2.2.1 "loc" ⟨some ⟨2, 0⟩, 9, some "0-9", some "g"⟩
     ⟨⟨"loc", 2000, 9, some "g", none⟩, 0, 9⟩ (by decide),
   c6_last_modified_amended.2.2.2.2.2.2.2 ⟨some "a", some ⟨3, 0⟩, 4, none⟩
     ⟨"a", 3000, 4, none, none⟩ (by decide)⟩

/-- Helper: a single scheduler transition preserves the in-flight bound. -/
theorem sinkStep_inFlight_le (cap : Nat) (s t : SinkState) (h : s.inFlight ≤ cap)
    (hstep : SinkStep cap s t) : t.inFlight ≤ cap := by
  cases hstep with
  | start p hlt =>
    show s.inFlight + 1 ≤ cap
    omega
  | enqueue p hge =>
    show s.inFlight ≤ cap
    exact h
  | finish hpos =>
    show s.inFlight - 1 ≤ cap
    omega
  | dequeue p rest hlt hq =>
    show s.inFlight + 1 ≤ cap
    omega

/-- C7: put_multipart builds its write sink with concurrency bound 16, and in
the scheduler modelled from the spec every state reachable from the initial
state at capacity 16 has at most 16 part uploads in flight; a part submitted
while all 16 slots are busy can only join the queue, and no single transition
from a full state exceeds the bound. -/
theorem c7_concurrency_bound :
    (∀ b l resp uid sink, put_multipart b l resp = .ok (uid, sink) →
      sink.max_concurrency = 16) ∧
    (∀ s, SinkReachable 16 s → s.inFlight ≤ 16) ∧
    (∀ s p, s.inFlight = 16 →
      SinkStep 16 s { inFlight := s.inFlight, queued := s.queued ++ [p] }) ∧
    (∀ s t, s.inFlight = 16 → SinkStep 16 s t → t.inFlight ≤ 16) := by
  refine ⟨?_, ?_, ?_, ?_⟩
  · intro b l resp uid sink h
    obtain ⟨uo⟩ := resp
    cases uo with
    | none => exact absurd h (by simp [put_multipart, Error.toObjectStoreError])
    | some uid2 =>
      simp only [put_multipart] at h
      injection h with h2
      injection h2 with h3 h4
      rw [← h4]
  · intro s h
    induction h with
    | refl => decide
    | tail hab hbc ih => exact sinkStep_inFlight_le 16 _ _ ih hbc
  · intro s p h
    exact SinkStep.enqueue s p (by omega)
  · intro s t h hstep
    exact sinkStep_inFlight_le 16 s t (le_of_eq h) hstep

/-- C7 witness: the bound applied at a concrete create response, the initial
state, a full state with a submitted part, and a finishing transition from a
full state. -/
theorem c7_concurrency_bound_witness :
    ({ upload := { bucket := "b", location := "l", upload_id := "uid" },
       max_concurrency := 16 } : WriteMultiPartSink).max_concurrency = 16 ∧
    sinkInit.inFlight ≤ 16 ∧
    SinkStep 16 { inFlight := 16, queued := [] } { inFlight := 16, queued := [] ++ [7] } ∧
    ({ inFlight := 16 - 1, queued := [] } : SinkState).inFlight ≤ 16 :=
  ⟨c7_concurrency_bound.1 "b" "l" ⟨some "uid"⟩ "uid" _ rfl,
   c7_concurrency_bound.2.1 sinkInit Relation.ReflTransGen.refl,
   c7_concurrency_bound.2.2.1 ⟨16, []⟩ 7 rfl,
   c7_concurrency_bound.2.2.2 ⟨16, []⟩ ⟨16 - 1, []⟩ rfl
     (SinkStep.finish ⟨16, []⟩ (by decide))⟩

/-- C8: when the range option is present but not a bounded range (an offset or
suffix range), get_opts sets no range field on the built request at all. -/
theorem c8_nonbounded_range_unset (bucket key : String) (options : GetOptions) (n : Nat)
    (h : options.range = some (GetRange.offset n) ∨
      options.range = some (GetRange.suffix n)) :
    (get_opts_request bucket key options).range = none := by
  obtain ⟨im, inm, ims, ius, rg⟩ := options
  rcases h with h | h
  · obtain rfl : rg = some (GetRange.offset n) := h
    cases im <;> cases inm <;> cases ims <;> cases ius <;> rfl
  · obtain rfl : rg = some (GetRange.suffix n) := h
    cases im <;> cases inm <;> cases ims <;> cases ius <;> rfl

/-- C8 witness: at an offset range and at a suffix range the built request
carries no range field. -/
theorem c8_nonbounded_range_witness :
    (get_opts_request "b" "k" { range := some (GetRange.offset 3) }).range = none ∧
    (get_opts_request "b" "k" { range := some (GetRange.suffix 4) }).range = none :=
  ⟨c8_nonbounded_range_unset "b" "k" { range := some (GetRange.offset 3) } 3 (Or.inl rfl),
   c8_nonbounded_range_unset "b" "k" { range := some (GetRange.suffix 4) } 4 (Or.inr rfl)⟩

/-- Counterexample to C9: a response whose content-range parses to a single
component (bytes=5) drives the range construction to index 1 of a
one-element vector, a panic, so get_opts is not total. -/
theorem c9_single_component_panics :
    get_opts_response "k" { last_modified := some ⟨0, 0⟩, content_length := 0,
                            content_range := some "bytes=5", e_tag := none } = .panics := by
  decide

/-- C9 amended: get_opts returns a result or an error - never panics - for
every response whose timestamp milliseconds, when they convert, lie inside
chrono's calendar range and whose content-range, when it parses, has at
least two components; outside those conditions it can panic, as the
counterexample shows. -/
theorem c9_no_panic_amended (loc : String) (resp : GetObjectResponse)
    (hts : match resp.last_modified with
      | none => True
      | some lm =>
        match lm.toMillis with
        | .error _ => True
        | .ok ms => (chronoFromTimestampMillis ms).isSome = true)
    (hcr : match resp.content_range with
      | none => True
      | some cr =>
        match parse_content_range cr with
        | .error _ => True
        | .ok l => 2 ≤ l.length) :
    get_opts_response loc resp ≠ .panics := by
  obtain ⟨lmo, cl, cro, eto⟩ := resp
  cases lmo with
  | none => simp [get_opts_response]
  | some lm =>
    have hts2 : (match lm.toMillis with
      | .error _ => True
      | .ok ms => (chronoFromTimestampMillis ms).isSome = true) := hts
    cases hm : lm.toMillis with
    | error e => simp [get_opts_response, hm]
    | ok ms =>
      rw [hm] at hts2
      have hts3 : (chronoFromTimestampMillis ms).isSome = true := hts2
      cases hc : chronoFromTimestampMillis ms with
      | none =>
        rw [hc] at hts3
        simp at hts3
      | some v =>
        cases cro with
        | none => simp [get_opts_response, hm, hc]
        | some cr =>
          have hcr2 : (match parse_content_range cr with
            | .error _ => True
            | .ok l => 2 ≤ l.length) := hcr
          cases hp : parse_content_range cr with
          | error e => simp [get_opts_response, hm, hc, hp]
          | ok l =>
            rw [hp] at hcr2
            have hcr3 : 2 ≤ l.length := hcr2
            rcases l with _ | ⟨r0, _ | ⟨r1, rest⟩⟩
            · simp at hcr3
            · simp at hcr3
            · simp [get_opts_response, hm, hc, hp]

/-- C9 amended witness: a well-formed response with a two-component
content-range and an in-range timestamp does not panic. -/
theorem c9_no_panic_witness :
    get_opts_response "loc" { last_modified := some ⟨0, 0⟩, content_length := 0,
                              content_range := some "bytes=0-5", e_tag := none } ≠ .panics :=
  c9_no_panic_amended "loc"
    { last_modified := some ⟨0, 0⟩, content_length := 0,
      content_range := some "bytes=0-5", e_tag := none }
    (by decide : (chronoFromTimestampMillis 0).isSome = true)
    (by decide : 2 ≤ ([0, 5] : List Nat).length)

/-- C10: when the remote list response has no contents field, list yields the
empty stream and list_with_delimiter returns a ListResult with an empty
objects list, in both cases without error. -/
theorem c10_missing_contents_empty (resp : ListObjectsV2Response)
    (h : resp.contents = none) :
    list_stream resp = [] ∧
    ∃ r, list_with_delimiter_response resp = .ok r ∧ r.objects = [] := by
  obtain ⟨co, cp⟩ := resp
  obtain rfl : co = none := h
  exact ⟨rfl, ⟨{ objects := [], common_prefixes := (cp.bind collectPrefixes).getD [] },
    rfl, rfl⟩⟩

/-- C10 witness: the statement applied at a concrete response without a
contents field. -/
theorem c10_missing_contents_witness :
    list_stream { contents := none, common_prefixes := some [⟨some "a/"⟩] } = [] ∧
    ∃ r, list_with_delimiter_response
        { contents := none, common_prefixes := some [⟨some "a/"⟩] } = .ok r ∧
      r.objects = [] :=
  c10_missing_contents_empty ⟨none, some [⟨some "a/"⟩]⟩ rfl

end S3Wasm
